import Mathlib

/-!
Verification of the `service_status` block (src/blocks/service_status.rs).

The Rust source is shallowly embedded: Rust byte strings become `List Nat`
(each element a byte value), fallible operations become `Except Err`, and the
asynchronous D-Bus environment (connection, proxy, property reads, the
`ActiveState` property-change stream, and the widget output sink) becomes an
explicit oracle structure `Env`.  Effectful steps of the program are recorded
in an event trace so ordering claims can be stated.
-/

namespace ServiceStatus

/-- A Rust byte string, one `Nat` per byte. -/
abbrev Bytes := List Nat

/-- Embeds `u8::is_ascii` / `str::is_ascii`: every byte is below 128. -/
def isAscii (s : Bytes) : Bool := s.all (fun b => b < 128)

/-- Embeds `u8::is_ascii_alphanumeric`: the byte is an ASCII digit,
uppercase letter or lowercase letter. -/
def isAsciiAlphanumeric (b : Nat) : Bool :=
  (48 ≤ b && b ≤ 57) || (65 ≤ b && b ≤ 90) || (97 ≤ b && b ≤ 122)

/-- Lowercase hexadecimal digit character (as a byte) for a value below 16,
as produced by Rust's lowercase hex formatting. -/
def hexDigit (n : Nat) : Nat := if n < 10 then 48 + n else 87 + n

/-- Embeds the per-byte step of the encoder closure in `SystemdDriver::new`:
an ASCII alphanumeric byte is emitted unchanged; any other byte becomes an
underscore followed by its two lowercase hex digits (Rust `format!("_{b:02x}")`,
which for a byte always yields exactly two digits). -/
def encodeByte (b : Nat) : Bytes :=
  if isAsciiAlphanumeric b then [b] else [95, hexDigit (b / 16), hexDigit (b % 16)]

/-- The bytes of the literal `".service"` appended in `SystemdDriver::new`. -/
def serviceSuffix : Bytes := [46, 115, 101, 114, 118, 105, 99, 101]

/-- Embeds the computation of `encoded_service` in `SystemdDriver::new`:
`format!("{service}.service").bytes().map(...).collect()`. -/
def encodeService (service : Bytes) : Bytes :=
  (service ++ serviceSuffix).flatMap encodeByte

/-- The bytes of `"cups"`. -/
def cupsBytes : Bytes := [99, 117, 112, 115]

/-- The bytes of `"cups_2eservice"`. -/
def cupsEncBytes : Bytes :=
  [99, 117, 112, 115, 95, 50, 101, 115, 101, 114, 118, 105, 99, 101]

/-- The bytes of `"a-b"`. -/
def abBytes : Bytes := [97, 45, 98]

/-- The bytes of `"a_2db_2eservice"`. -/
def abEncBytes : Bytes :=
  [97, 95, 50, 100, 98, 95, 50, 101, 115, 101, 114, 118, 105, 99, 101]

/-- Two-digit lowercase hexadecimal rendering of a byte, written from the
spec's words using the library's digit conversion: the hexadecimal digits of
the value, left-padded with a zero to width two. -/
def specHex2 (b : Nat) : List Char :=
  let ds := Nat.toDigits 16 b
  if ds.length < 2 then '0' :: ds else ds

/-- Reference per-byte escape following the spec text of section 4.1: map the
byte to itself if it is ASCII alphanumeric, otherwise to an underscore
followed by its two-digit lowercase hexadecimal value. -/
def specEscapeByte (b : Nat) : Bytes :=
  if isAsciiAlphanumeric b then [b]
  else 95 :: (specHex2 b).map Char.toNat

/-- Reference encoder following the spec text of section 4.1: append the
literal suffix `".service"`, then escape every byte of the result. -/
def specEncode (s : Bytes) : Bytes :=
  (s ++ serviceSuffix).flatMap specEscapeByte

lemma specEscapeByte_eq_encodeByte : ∀ b < 128, specEscapeByte b = encodeByte b := by
  decide

lemma mem_append_suffix_lt {s : Bytes} (h : isAscii s = true) :
    ∀ b ∈ s ++ serviceSuffix, b < 128 := by
  intro b hb
  rcases List.mem_append.mp hb with h1 | h2
  · exact of_decide_eq_true (List.all_eq_true.mp h b h1)
  · fin_cases h2 <;> decide

lemma bind_congr_mem {α β : Type} {l : List α} {f g : α → List β}
    (h : ∀ x ∈ l, f x = g x) : l.flatMap f = l.flatMap g := by
  induction l with
  | nil => rfl
  | cons a t ih =>
    simp only [List.flatMap_cons]
    rw [h a (List.mem_cons_self a t), ih (fun x hx => h x (List.mem_cons_of_mem a hx))]

/-- Every byte of `encodeByte b` is an ASCII alphanumeric or an underscore,
for any byte value `b < 128`. -/
lemma encodeByte_valid {b : Nat} (hb : b < 128) :
    ∀ c ∈ encodeByte b, (isAsciiAlphanumeric c || c == 95) = true := by
  intro c hc
  unfold encodeByte at hc
  by_cases h : isAsciiAlphanumeric b
  · simp only [h, if_true, List.mem_singleton] at hc
    subst hc
    simp [h]
  · simp only [h, if_false, Bool.false_eq_true, List.mem_cons, List.not_mem_nil,
      or_false] at hc
    have h16 : b / 16 < 16 := by omega
    have h16m : b % 16 < 16 := Nat.mod_lt _ (by omega)
    have hdig : ∀ n < 16, (isAsciiAlphanumeric (hexDigit n) || hexDigit n == 95) = true := by
      decide
    rcases hc with hc | hc | hc
    · subst hc; decide
    · subst hc; exact hdig _ h16
    · subst hc; exact hdig _ h16m

lemma encodeService_valid {s : Bytes} (h : isAscii s = true) :
    ∀ c ∈ encodeService s, (isAsciiAlphanumeric c || c == 95) = true := by
  intro c hc
  unfold encodeService at hc
  rcases List.mem_flatMap.mp hc with ⟨b, hb, hcb⟩
  exact encodeByte_valid (mem_append_suffix_lt h b hb) c hcb

lemma encodeByte_ne_nil (b : Nat) : encodeByte b ≠ [] := by
  unfold encodeByte
  by_cases h : isAsciiAlphanumeric b <;> simp [h]

lemma hexDigit_inj : ∀ m < 16, ∀ n < 16, hexDigit m = hexDigit n → m = n := by
  decide

lemma alnum_ne_95 {b : Nat} (h : isAsciiAlphanumeric b = true) : b ≠ 95 := by
  intro hb
  subst hb
  exact absurd h (by decide)

/-- The byte-level escape code is uniquely decodable: `List.flatMap encodeByte`
is injective on lists of ASCII bytes. -/
lemma bind_encodeByte_inj :
    ∀ l1 l2 : Bytes, isAscii l1 = true → isAscii l2 = true →
      l1.flatMap encodeByte = l2.flatMap encodeByte → l1 = l2 := by
  intro l1
  induction l1 with
  | nil =>
    intro l2 _ _ heq
    cases l2 with
    | nil => rfl
    | cons b t =>
      exfalso
      simp only [List.flatMap_nil, List.flatMap_cons] at heq
      have := encodeByte_ne_nil b
      cases hb : encodeByte b with
      | nil => exact this hb
      | cons x xs => rw [hb] at heq; simp at heq
  | cons a t ih =>
    intro l2 h1 h2 heq
    cases l2 with
    | nil =>
      exfalso
      simp only [List.flatMap_cons, List.flatMap_nil] at heq
      have := encodeByte_ne_nil a
      cases hb : encodeByte a with
      | nil => exact this hb
      | cons x xs => rw [hb] at heq; simp at heq
    | cons b t2 =>
      have ha : a < 128 := of_decide_eq_true (List.all_eq_true.mp h1 a (List.mem_cons_self a t))
      have hbb : b < 128 := of_decide_eq_true (List.all_eq_true.mp h2 b (List.mem_cons_self b t2))
      have ht1 : isAscii t = true := by
        simp only [isAscii, List.all_cons, Bool.and_eq_true] at h1
        exact h1.2
      have ht2 : isAscii t2 = true := by
        simp only [isAscii, List.all_cons, Bool.and_eq_true] at h2
        exact h2.2
      simp only [List.flatMap_cons] at heq
      by_cases hA : isAsciiAlphanumeric a <;> by_cases hB : isAsciiAlphanumeric b
      · simp only [encodeByte, hA, hB, if_true, List.cons_append, List.nil_append,
          List.cons.injEq] at heq
        obtain ⟨hab, htt⟩ := heq
        rw [hab, ih t2 ht1 ht2 htt]
      · simp [encodeByte, hA, hB] at heq
        exact absurd heq.1 (alnum_ne_95 hA)
      · simp [encodeByte, hA, hB] at heq
        exact absurd heq.1.symm (alnum_ne_95 hB)
      · simp [encodeByte, hA, hB] at heq
        obtain ⟨hd1, hd2, htt⟩ := heq
        have e1 : a / 16 = b / 16 :=
          hexDigit_inj _ (by omega) _ (by omega) hd1
        have e2 : a % 16 = b % 16 :=
          hexDigit_inj _ (Nat.mod_lt _ (by omega)) _ (Nat.mod_lt _ (by omega)) hd2
        have hab : a = b := by
          have := Nat.div_add_mod a 16
          have := Nat.div_add_mod b 16
          omega
        rw [hab, ih t2 ht1 ht2 htt]

/-! ## Driver, environment and monitor loop -/

/-- Embeds the block `Error` type: `Error::new(msg)` becomes `Err.msg`, the
`.error(msg)` context wrapper on a lower-level failure becomes `Err.ctx`, and
raw bus-library errors delivered by the environment become `Err.bus`. -/
inductive Err where
  | msg (m : String)
  | ctx (m : String) (cause : Err)
  | bus (code : Nat)
deriving DecidableEq

/-- Embeds the `State` enum used for `widget.state`. -/
inductive State where
  | idle
  | info
  | good
  | warning
  | critical
deriving DecidableEq

/-- Modelled from the spec: the format-string templating engine is part of
this repository but not under src/.  Per the spec, a format template is a
sequence of literal runs and occurrences of the `service` placeholder. -/
inductive Seg where
  | lit (s : Bytes)
  | svcVar
deriving DecidableEq

/-- A parsed format template. -/
abbrev Template := List Seg

/-- Modelled from the spec: rendering substitutes the service name for each
`service` placeholder and leaves literals unchanged. -/
def render (t : Template) (service : Bytes) : Bytes :=
  t.flatMap fun seg =>
    match seg with
    | .lit s => s
    | .svcVar => service

/-- Oracle for the asynchronous D-Bus environment: results of the connection
attempt, of proxy construction, of the k-th `ActiveState` property read, of
the k-th pull from the property-change stream (`none` = stream terminated),
and of the k-th widget publication.  Indexed by how many such operations the
program has already performed, since the program issues them sequentially. -/
structure Env where
  connect : Except Err Unit
  buildProxy : Except Err Unit
  readState : Nat → Except Err Bytes
  streamNext : Nat → Option Bytes
  sink : Nat → Except Err Unit

/-- Observable steps of the program, recorded in order. -/
inductive Event where
  | connect
  | encode (enc : Bytes)
  | buildProxy
  | subscribe
  | query (k : Nat)
  | publish (st : State) (fmt : Template) (svc : Bytes)
  | wait (k : Nat)
deriving DecidableEq

/-- Decode a byte list back into a Lean string (used only to build the exact
validation error message of the source). -/
def bytesToString (l : Bytes) : String := String.mk (l.map Char.ofNat)

/-- The exact validation error of `SystemdDriver::new`:
`format!("service name \"{service}\" must only contain ASCII characters")`. -/
def mkValidationErr (service : Bytes) : Err :=
  .msg ("service name \x22" ++ bytesToString service ++ "\x22 must only contain ASCII characters")

/-- Modelled from the spec: the bus library's object-path validity check
performed by the proxy builder is external code; per the spec, the IPC bus
restricts object-path segments to (nonempty runs of) ASCII alphanumerics and
underscore. -/
def busPathSegmentOk (l : Bytes) : Bool :=
  !l.isEmpty && l.all (fun b => isAsciiAlphanumeric b || b == 95)

/-- The state held by a constructed `SystemdDriver` that the embedding needs:
the encoded unit name its proxy was bound to. -/
structure DriverState where
  encodedService : Bytes
deriving DecidableEq

/-- Embeds `SystemdDriver::new`, recording the trace of effectful steps in
source order: open the system bus connection, reject non-ASCII names, encode
the unit name, build the proxy at the unit object path, and open the
`ActiveState` property-change subscription before returning. -/
def sysD_new (env : Env) (service : Bytes) : Except Err DriverState × List Event :=
  match env.connect with
  | .error e => (.error e, [Event.connect])
  | .ok _ =>
    if isAscii service = false then
      (.error (mkValidationErr service), [Event.connect])
    else
      let enc := encodeService service
      if busPathSegmentOk enc = false then
        (.error (Err.msg "Could not set path"), [Event.connect, Event.encode enc])
      else
        match env.buildProxy with
        | .error e =>
          (.error (Err.ctx "Failed to create UnitProxy" e),
            [Event.connect, Event.encode enc, Event.buildProxy])
        | .ok _ =>
          (.ok ⟨enc⟩, [Event.connect, Event.encode enc, Event.buildProxy, Event.subscribe])

/-- The bytes of `"active"`. -/
def activeBytes : Bytes := [97, 99, 116, 105, 118, 101]

/-- Embeds `SystemdDriver::is_active`: read the `ActiveState` property,
wrapping a read failure with context, and compare the value against
`"active"`. -/
def sysD_is_active (env : Env) (k : Nat) : Except Err Bool :=
  match env.readState k with
  | .error e => .error (.ctx "Could not get active_state" e)
  | .ok s => .ok (s == activeBytes)

/-- Embeds `SystemdDriver::wait_for_change`: pull the next item from the
property-change stream, discard it whatever it is (even `none`, the
terminated stream), and return `Ok(())`. -/
def sysD_wait_for_change (env : Env) (k : Nat) : Except Err Unit :=
  match env.streamNext k with
  | _ => .ok ()

/-- The block configuration after parsing, as `run` receives it: the raw
service name and the already-parsed formats and optional states. -/
structure Config where
  service : Bytes
  activeFormat : Template
  inactiveFormat : Template
  activeState : Option State
  inactiveState : Option State

/-- One iteration of the `loop` in `run`: query `is_active`, pick state and
format from the result (defaults `State::Idle` / `State::Critical`), publish
the widget with the `service` value set, then wait for a change.  Each `?` in
the source becomes an error return carrying the trace so far. -/
def loopIter (cfg : Config) (env : Env) (k : Nat) : Except Err Unit × List Event :=
  match sysD_is_active env k with
  | .error e => (.error e, [Event.query k])
  | .ok b =>
    let st := if b then cfg.activeState.getD State.idle else cfg.inactiveState.getD State.critical
    let fmt := if b then cfg.activeFormat else cfg.inactiveFormat
    match env.sink k with
    | .error e => (.error e, [Event.query k, Event.publish st fmt cfg.service])
    | .ok _ =>
      match sysD_wait_for_change env k with
      | .error e => (.error e, [Event.query k, Event.publish st fmt cfg.service, Event.wait k])
      | .ok _ => (.ok (), [Event.query k, Event.publish st fmt cfg.service, Event.wait k])

/-- Outcome of running the (in the source: infinite) monitor loop for a
bounded number of iterations: either some iteration returned an error, or the
iteration budget ran out with the loop still going. -/
inductive LoopOutcome where
  | err (e : Err)
  | fuelOut
deriving DecidableEq

/-- Embeds the `loop` in `run`, starting at iteration k with the given
budget, accumulating the event trace. -/
def loopRun (cfg : Config) (env : Env) : Nat → Nat → LoopOutcome × List Event
  | _, 0 => (.fuelOut, [])
  | k, fuel + 1 =>
    match loopIter cfg env k with
    | (.error e, tr) => (.err e, tr)
    | (.ok _, tr) =>
      let r := loopRun cfg env (k + 1) fuel
      (r.fst, tr ++ r.snd)

/-- Embeds `run`: construct the `SystemdDriver` (propagating its error), then
enter the monitor loop. -/
def runMonitor (cfg : Config) (env : Env) (fuel : Nat) : LoopOutcome × List Event :=
  match sysD_new env cfg.service with
  | (.error e, tr) => (.err e, tr)
  | (.ok _, tr) =>
    let r := loopRun cfg env 0 fuel
    (r.fst, tr ++ r.snd)

/-- True when neither the k-th property read nor the k-th publication fails:
the k-th loop iteration completes normally. -/
def okIterB (env : Env) (k : Nat) : Bool :=
  (match env.readState k with | .ok _ => true | .error _ => false) &&
  (match env.sink k with | .ok _ => true | .error _ => false)

/-- The event trace of the k-th loop iteration. -/
def iterTr (cfg : Config) (env : Env) (k : Nat) : List Event :=
  (loopIter cfg env k).snd

/-- Recognizes the query and wait events. -/
def isQW : Event → Bool
  | .query _ => true
  | .wait _ => true
  | _ => false

/-- Recognizes the publish events. -/
def isPub : Event → Bool
  | .publish _ _ _ => true
  | _ => false

lemma sysD_wait_for_change_eq_ok (env : Env) (k : Nat) :
    sysD_wait_for_change env k = .ok () := rfl

/-- A normally-completing iteration returns ok and leaves the three-event
trace query, publish, wait. -/
lemma loopIter_ok (cfg : Config) {env : Env} {k : Nat} (h : okIterB env k = true) :
    ∃ b, sysD_is_active env k = .ok b ∧
      loopIter cfg env k = (.ok (),
        [Event.query k,
         Event.publish
           (if b then cfg.activeState.getD State.idle else cfg.inactiveState.getD State.critical)
           (if b then cfg.activeFormat else cfg.inactiveFormat) cfg.service,
         Event.wait k]) := by
  unfold okIterB at h
  cases hr : env.readState k with
  | error e => rw [hr] at h; simp at h
  | ok s =>
    cases hs : env.sink k with
    | error e => rw [hr, hs] at h; simp at h
    | ok _ =>
      refine ⟨s == activeBytes, ?_, ?_⟩
      · unfold sysD_is_active; rw [hr]
      · unfold loopIter sysD_is_active
        rw [hr, hs]
        rfl

/-- When every iteration in the window completes normally, the loop runs out
of fuel and its trace is the concatenation of the iteration traces. -/
lemma loopRun_ok_trace (cfg : Config) (env : Env) :
    ∀ fuel k, (∀ j < fuel, okIterB env (k + j) = true) →
      loopRun cfg env k fuel = (.fuelOut, (List.range' k fuel).flatMap (iterTr cfg env)) := by
  intro fuel
  induction fuel with
  | zero => intro k _; rfl
  | succ n ih =>
    intro k h
    have h0 : okIterB env k = true := by
      have := h 0 (Nat.succ_pos n)
      simpa using this
    obtain ⟨b, _, hit⟩ := loopIter_ok cfg h0
    have hrest : ∀ j < n, okIterB env (k + 1 + j) = true := by
      intro j hj
      have := h (j + 1) (Nat.succ_lt_succ hj)
      simpa [Nat.add_assoc, Nat.add_comm 1 j] using this
    show loopRun cfg env k (n + 1) = _
    rw [List.range'_succ, List.flatMap_cons]
    unfold loopRun
    rw [hit, ih (k + 1) hrest]
    simp [iterTr, hit]

/-- When the first k iterations complete normally and the query of iteration
k fails, the loop stops there: the outcome is exactly the query's error and
the trace ends at that query event, with nothing after it. -/
lemma loopRun_err_trace (cfg : Config) (env : Env) :
    ∀ (k start fuel : Nat) (e : Err), (∀ j < k, okIterB env (start + j) = true) →
      sysD_is_active env (start + k) = .error e → k < fuel →
      loopRun cfg env start fuel =
        (.err e, ((List.range' start k).flatMap (iterTr cfg env)) ++ [Event.query (start + k)]) := by
  intro k
  induction k with
  | zero =>
    intro start fuel e _ herr hf
    obtain ⟨f, rfl⟩ : ∃ f, fuel = f + 1 :=
      ⟨fuel - 1, by omega⟩
    show loopRun cfg env start (f + 1) = _
    unfold loopRun loopIter
    rw [Nat.add_zero] at herr
    rw [herr]
    simp
  | succ n ih =>
    intro start fuel e h herr hf
    obtain ⟨f, rfl⟩ : ∃ f, fuel = f + 1 := ⟨fuel - 1, by omega⟩
    have h0 : okIterB env start = true := by
      have := h 0 (Nat.succ_pos n)
      simpa using this
    obtain ⟨b, _, hit⟩ := loopIter_ok cfg h0
    have hrest : ∀ j < n, okIterB env (start + 1 + j) = true := by
      intro j hj
      have := h (j + 1) (Nat.succ_lt_succ hj)
      simpa [Nat.add_assoc, Nat.add_comm 1 j] using this
    have herr' : sysD_is_active env (start + 1 + n) = .error e := by
      have : start + 1 + n = start + (n + 1) := by omega
      rw [this]; exact herr
    show loopRun cfg env start (f + 1) = _
    unfold loopRun
    rw [hit, ih (start + 1) f e hrest herr' (by omega)]
    rw [List.range'_succ, List.flatMap_cons]
    have harith : start + 1 + n = start + (n + 1) := by omega
    simp [iterTr, hit, harith, List.append_assoc]

/-- Filtering the concatenated traces of normally-completing iterations down
to query/wait events leaves exactly one query followed by one wait per
iteration. -/
lemma flatMap_iterTr_filter_qw (cfg : Config) (env : Env) :
    ∀ l : List Nat, (∀ k ∈ l, okIterB env k = true) →
      ((l.flatMap (iterTr cfg env)).filter isQW) =
        l.flatMap (fun k => [Event.query k, Event.wait k]) := by
  intro l
  induction l with
  | nil => intro _; rfl
  | cons a t ih =>
    intro h
    obtain ⟨b, _, hit⟩ := loopIter_ok cfg (h a (List.mem_cons_self a t))
    rw [List.flatMap_cons, List.flatMap_cons, List.filter_append,
      ih (fun k hk => h k (List.mem_cons_of_mem a hk))]
    simp [iterTr, hit, isQW]

/-! ## Concrete fixtures for examples, witnesses and counterexamples -/

/-- The bytes of `"activating"`. -/
def activatingBytes : Bytes := [97, 99, 116, 105, 118, 97, 116, 105, 110, 103]

/-- The bytes of `"café"` (the final byte 233 is non-ASCII). -/
def svcNonAscii : Bytes := [99, 97, 102, 233]

/-- Template for `"$service active"`. -/
def tmplActiveEx : Template := [Seg.svcVar, Seg.lit [32, 97, 99, 116, 105, 118, 101]]

/-- Template for `"$service inactive"`. -/
def tmplInactiveEx : Template :=
  [Seg.svcVar, Seg.lit [32, 105, 110, 97, 99, 116, 105, 118, 101]]

/-- The bytes of `"cups active"`. -/
def cupsActiveBytes : Bytes := [99, 117, 112, 115, 32, 97, 99, 116, 105, 118, 101]

/-- The bytes of `"cups inactive"`. -/
def cupsInactiveBytes : Bytes :=
  [99, 117, 112, 115, 32, 105, 110, 97, 99, 116, 105, 118, 101]

/-- Example configuration: service `"cups"`, the spec's scenario templates,
no state overrides. -/
def cfgEx : Config :=
  ⟨cupsBytes, tmplActiveEx, tmplInactiveEx, none, none⟩

/-- A fully healthy environment: everything succeeds, every read reports
`"active"`, the stream always delivers items. -/
def envEx : Env :=
  ⟨.ok (), .ok (), fun _ => .ok activeBytes, fun _ => some activeBytes, fun _ => .ok ()⟩

/-- An environment whose property-change stream has terminated (every pull
returns `none`), while reads and publishes still succeed. -/
def envTerm : Env :=
  ⟨.ok (), .ok (), fun _ => .ok activeBytes, fun _ => none, fun _ => .ok ()⟩

/-- An environment whose reads report the transitional state `"activating"`. -/
def envActivating : Env :=
  ⟨.ok (), .ok (), fun _ => .ok activatingBytes, fun _ => some activatingBytes, fun _ => .ok ()⟩

/-- An environment whose second property read (index 1) fails with a raw bus
error; everything else succeeds. -/
def envErr : Env :=
  ⟨.ok (), .ok (),
   fun k => if k = 0 then .ok activeBytes else .error (.bus 7),
   fun _ => some activeBytes, fun _ => .ok ()⟩

lemma encodeService_ne_nil (s : Bytes) : encodeService s ≠ [] := by
  unfold encodeService
  intro h
  have h46 : (46 : Nat) ∈ s ++ serviceSuffix := List.mem_append.mpr (Or.inr (by decide))
  have h95 : (95 : Nat) ∈ (s ++ serviceSuffix).flatMap encodeByte :=
    List.mem_flatMap.mpr ⟨46, h46, by decide⟩
  rw [h] at h95
  cases h95

lemma busPathSegmentOk_encode {s : Bytes} (h : isAscii s = true) :
    busPathSegmentOk (encodeService s) = true := by
  unfold busPathSegmentOk
  rw [Bool.and_eq_true]
  constructor
  · cases he : encodeService s with
    | nil => exact absurd he (encodeService_ne_nil s)
    | cons a t => rfl
  · rw [List.all_eq_true]
    intro b hb
    exact encodeService_valid h b hb

/-! ## Claim theorems -/

/-- C3: for every ASCII service name the source encoder agrees with the
reference encoder written from the spec text (append `".service"`, then per
byte: ASCII alphanumerics unchanged, every other byte as an underscore plus
its two lowercase hex digits); in particular `encode "cups"` is
`"cups_2eservice"` and `encode "a-b"` is `"a_2db_2eservice"`. -/
theorem c3_encoder_matches_spec :
    (∀ s : Bytes, isAscii s = true → encodeService s = specEncode s) ∧
    encodeService cupsBytes = cupsEncBytes ∧
    encodeService abBytes = abEncBytes := by
  refine ⟨?_, by decide, by decide⟩
  intro s hs
  unfold encodeService specEncode
  exact (bind_congr_mem fun b hb =>
    specEscapeByte_eq_encodeByte b (mem_append_suffix_lt hs b hb)).symm

/-- Witness for C3 at the concrete service name `"c"`. -/
theorem c3_encoder_matches_spec_witness :
    encodeService [99] = specEncode [99] :=
  c3_encoder_matches_spec.1 [99] (by decide)

/-- C4: `is_active` returns true iff the `ActiveState` string read from the
proxy equals `"active"` exactly; any other value yields false. -/
theorem c4_is_active_iff_exact (env : Env) (k : Nat) (s : Bytes)
    (h : env.readState k = .ok s) :
    (sysD_is_active env k = .ok true ↔ s = activeBytes) ∧
    (s ≠ activeBytes → sysD_is_active env k = .ok false) := by
  constructor
  · simp [sysD_is_active, h]
  · intro hne
    simp [sysD_is_active, h, hne]

/-- Witness for C4: with the transitional value `"activating"` the query
yields false. -/
theorem c4_is_active_iff_exact_witness :
    sysD_is_active envActivating 0 = .ok false :=
  (c4_is_active_iff_exact envActivating 0 activatingBytes rfl).2 (by decide)

/-- C9: for every ASCII service name, every byte of the encoded path segment
is an ASCII alphanumeric or an underscore, so the unit object path's final
segment satisfies the bus' object-path restriction. -/
theorem c9_encoded_segment_is_legal_path_segment (s : Bytes) (h : isAscii s = true) :
    (∀ c ∈ encodeService s, isAsciiAlphanumeric c = true ∨ c = 95) ∧
    busPathSegmentOk (encodeService s) = true := by
  refine ⟨?_, busPathSegmentOk_encode h⟩
  intro c hc
  have hv := encodeService_valid h c hc
  rcases (Bool.or_eq_true _ _).mp hv with h1 | h2
  · exact Or.inl h1
  · exact Or.inr (by simpa using h2)

/-- Witness for C9 at the concrete service name `"cups"`. -/
theorem c9_encoded_segment_is_legal_path_segment_witness :
    busPathSegmentOk (encodeService cupsBytes) = true :=
  (c9_encoded_segment_is_legal_path_segment cupsBytes (by decide)).2

/-- C10: the path encoding is injective on ASCII service names: distinct
names always get distinct encoded path segments. -/
theorem c10_encode_injective (s1 s2 : Bytes)
    (h1 : isAscii s1 = true) (h2 : isAscii s2 = true)
    (heq : encodeService s1 = encodeService s2) : s1 = s2 := by
  have hsuf : serviceSuffix.all (fun b => b < 128) = true := by decide
  have ha1 : isAscii (s1 ++ serviceSuffix) = true := by
    simp only [isAscii, List.all_append, Bool.and_eq_true]
    exact ⟨h1, hsuf⟩
  have ha2 : isAscii (s2 ++ serviceSuffix) = true := by
    simp only [isAscii, List.all_append, Bool.and_eq_true]
    exact ⟨h2, hsuf⟩
  have hcat := bind_encodeByte_inj (s1 ++ serviceSuffix) (s2 ++ serviceSuffix) ha1 ha2 heq
  exact List.append_cancel_right hcat

/-- Witness for C10 at the concrete service name `"cups"`. -/
theorem c10_encode_injective_witness : cupsBytes = cupsBytes :=
  c10_encode_injective cupsBytes cupsBytes (by decide) (by decide) rfl

/-- C1 counterexample: in the environment whose subscription stream has
terminated (every pull returns `none`), `wait_for_change` returns `Ok(())`
rather than any error, and the monitor loop completes two full iterations
without returning an error — refuting the claim that stream termination
yields a fatal IPC error returned within the same iteration. -/
theorem c1_counterexample :
    envTerm.streamNext 0 = none ∧
    sysD_wait_for_change envTerm 0 = .ok () ∧
    (loopRun cfgEx envTerm 0 2).fst = .fuelOut :=
  ⟨rfl, rfl, rfl⟩

/-- C1 amended: if the subscription stream terminates without yielding an
item, `wait_for_change` discards the `None` and returns `Ok(())`; the loop
iteration completes normally and proceeds to the next query instead of
returning an error. -/
theorem c1_stream_termination_returns_ok (env : Env) (k : Nat) (cfg : Config)
    (_hterm : env.streamNext k = none) (hok : okIterB env k = true) :
    sysD_wait_for_change env k = .ok () ∧ (loopIter cfg env k).fst = .ok () := by
  refine ⟨rfl, ?_⟩
  obtain ⟨b, _, hit⟩ := loopIter_ok cfg hok
  rw [hit]

/-- Witness for the amended C1 in the terminated-stream environment. -/
theorem c1_stream_termination_returns_ok_witness :
    sysD_wait_for_change envTerm 0 = .ok () ∧ (loopIter cfgEx envTerm 0).fst = .ok () :=
  c1_stream_termination_returns_ok envTerm 0 cfgEx rfl (by decide)

/-- C2 counterexample: for the non-ASCII service name `"café"`, construction
fails with the validation error, but the recorded trace contains the
bus-connection attempt — refuting the claim that the validation failure
precedes any bus connection attempt. -/
theorem c2_counterexample :
    isAscii svcNonAscii = false ∧
    (sysD_new envEx svcNonAscii).fst = .error (mkValidationErr svcNonAscii) ∧
    Event.connect ∈ (sysD_new envEx svcNonAscii).snd :=
  ⟨rfl, rfl, by decide⟩

/-- C2 amended: for every service name containing a non-ASCII byte, if the
system-bus connection opened successfully, construction fails with the
validation error before any encoding step, proxy construction or
subscription — but after the bus connection attempt, which the code performs
first. -/
theorem c2_validation_error_after_connect (env : Env) (svc : Bytes)
    (hna : isAscii svc = false) (hc : env.connect = .ok ()) :
    sysD_new env svc = (.error (mkValidationErr svc), [Event.connect]) := by
  unfold sysD_new
  rw [hc]
  simp [hna]

/-- Witness for the amended C2 at the concrete name `"café"`. -/
theorem c2_validation_error_after_connect_witness :
    sysD_new envEx svcNonAscii = (.error (mkValidationErr svcNonAscii), [Event.connect]) :=
  c2_validation_error_after_connect envEx svcNonAscii rfl rfl

/-- C5: whenever construction succeeds, the subscription event opened inside
`SystemdDriver::new` occurs strictly before every query event in the full
monitor trace; in particular it precedes the first query. -/
theorem c5_subscribe_before_first_query (cfg : Config) (env : Env) (fuel : Nat)
    (hconn : env.connect = .ok ()) (hproxy : env.buildProxy = .ok ())
    (hascii : isAscii cfg.service = true) :
    ∀ (i k : Nat), ((runMonitor cfg env fuel).snd)[i]? = some (Event.query k) →
      ∃ j : Nat, j < i ∧ ((runMonitor cfg env fuel).snd)[j]? = some Event.subscribe := by
  have hpath : busPathSegmentOk (encodeService cfg.service) = true :=
    busPathSegmentOk_encode hascii
  have hnew : sysD_new env cfg.service =
      (.ok ⟨encodeService cfg.service⟩,
       [Event.connect, Event.encode (encodeService cfg.service), Event.buildProxy,
        Event.subscribe]) := by
    unfold sysD_new
    rw [hconn]
    simp [hascii, hpath, hproxy]
  have htr : (runMonitor cfg env fuel).snd =
      [Event.connect, Event.encode (encodeService cfg.service), Event.buildProxy,
       Event.subscribe] ++ (loopRun cfg env 0 fuel).snd := by
    unfold runMonitor
    rw [hnew]
  intro i k hq
  rw [htr] at hq ⊢
  by_cases hi : i < 4
  · exfalso
    interval_cases i <;> simp [List.cons_append] at hq
  · refine ⟨3, by omega, ?_⟩
    simp [List.cons_append]

/-- Witness for C5: in the healthy environment the first query sits at index
4 of the trace and the subscription event precedes it. -/
theorem c5_subscribe_before_first_query_witness :
    ∃ j, j < 4 ∧ ((runMonitor cfgEx envEx 1).snd)[j]? = some Event.subscribe :=
  c5_subscribe_before_first_query cfgEx envEx 1 rfl rfl (by decide) 4 0 (by decide)

/-- C6: over any window of normally-completing iterations, the query/wait
events of the loop trace are exactly one query followed by one wait per
iteration, in order, none skipped or duplicated. -/
theorem c6_one_query_one_wait_per_iteration (cfg : Config) (env : Env) (n : Nat)
    (h : ∀ k < n, okIterB env k = true) :
    ((loopRun cfg env 0 n).snd).filter isQW =
      (List.range n).flatMap fun k => [Event.query k, Event.wait k] := by
  have h0 : ∀ j < n, okIterB env (0 + j) = true := by
    intro j hj; simpa using h j hj
  rw [loopRun_ok_trace cfg env n 0 h0, List.range_eq_range']
  exact flatMap_iterTr_filter_qw cfg env (List.range' 0 n)
    (fun k hk => h k (by simpa using List.mem_range'.mp hk))

/-- Witness for C6 over two healthy iterations. -/
theorem c6_one_query_one_wait_per_iteration_witness :
    ((loopRun cfgEx envEx 0 2).snd).filter isQW =
      [Event.query 0, Event.wait 0, Event.query 1, Event.wait 1] := by
  rw [c6_one_query_one_wait_per_iteration cfgEx envEx 2 (by decide)]
  rfl

/-- C7: a query error at iteration k aborts the loop at once — the outcome is
that exact error, unchanged, and the trace ends at that query event with no
further events (no retry, no backoff); and while no error occurs the loop
never returns at all (it only ends by exhausting its fuel budget). -/
theorem c7_fatal_error_propagation :
    (∀ (cfg : Config) (env : Env) (k : Nat) (e : Err) (n : Nat),
        (∀ j < k, okIterB env j = true) →
        sysD_is_active env k = .error e → k < n →
        loopRun cfg env 0 n =
          (.err e, ((List.range k).flatMap (iterTr cfg env)) ++ [Event.query k])) ∧
    (∀ (cfg : Config) (env : Env) (n : Nat),
        (∀ k < n, okIterB env k = true) → (loopRun cfg env 0 n).fst = .fuelOut) := by
  constructor
  · intro cfg env k e n h herr hk
    have h0 : ∀ j < k, okIterB env (0 + j) = true := by
      intro j hj; simpa using h j hj
    have herr0 : sysD_is_active env (0 + k) = .error e := by simpa using herr
    have hres := loopRun_err_trace cfg env k 0 n e h0 herr0 hk
    simpa [List.range_eq_range'] using hres
  · intro cfg env n h
    have h0 : ∀ j < n, okIterB env (0 + j) = true := by
      intro j hj; simpa using h j hj
    rw [loopRun_ok_trace cfg env n 0 h0]

/-- Witness for C7: the raw bus error of the second read, wrapped by
`is_active` into its context error, is what the loop returns, with the trace
ending at the failing query. -/
theorem c7_fatal_error_propagation_witness :
    loopRun cfgEx envErr 0 3 =
      (.err (Err.ctx "Could not get active_state" (Err.bus 7)),
       ((List.range 1).flatMap (iterTr cfgEx envErr)) ++ [Event.query 1]) :=
  c7_fatal_error_propagation.1 cfgEx envErr 1
    (Err.ctx "Could not get active_state" (Err.bus 7)) 3 (by decide) rfl (by decide)

/-- C8: in every iteration whose query succeeded, the published widget update
is exactly one publish event carrying the active profile (state and format)
when the queried state is true and the inactive profile otherwise, with the
configured service name as the value of the `service` placeholder; rendering
the spec scenario's templates with `"cups"` yields `"cups active"` and
`"cups inactive"`. -/
theorem c8_profile_selection_and_single_publish :
    (∀ (cfg : Config) (env : Env) (k : Nat) (b : Bool),
        sysD_is_active env k = .ok b → env.sink k = .ok () →
        (iterTr cfg env k).filter isPub =
          [Event.publish
            (if b then cfg.activeState.getD State.idle else cfg.inactiveState.getD State.critical)
            (if b then cfg.activeFormat else cfg.inactiveFormat) cfg.service]) ∧
    render tmplActiveEx cupsBytes = cupsActiveBytes ∧
    render tmplInactiveEx cupsBytes = cupsInactiveBytes := by
  refine ⟨?_, by decide, by decide⟩
  intro cfg env k b hq hs
  unfold iterTr loopIter
  rw [hq, hs]
  simp [isPub, sysD_wait_for_change]

/-- Witness for C8: the first healthy iteration publishes the active profile
exactly once. -/
theorem c8_profile_selection_and_single_publish_witness :
    (iterTr cfgEx envEx 0).filter isPub =
      [Event.publish State.idle tmplActiveEx cupsBytes] := by
  have hres := c8_profile_selection_and_single_publish.1 cfgEx envEx 0 true rfl rfl
  simpa [cfgEx] using hres

end ServiceStatus
